import Mathlib

/-!
Verification of the appointment/payment/calendar core of the
Presupuestos_Gestion_Citas_Kare backend (Flask + SQLAlchemy).

The route handlers in `backend/routes/{appointments,payments,calendar}.py`
are embedded as pure functions over an explicit database state `DB`.
Request bodies are embedded as structures of `Option` fields: an outer
`Option` records whether the key is present in the JSON body, and for
fields the handlers parse from strings (dates, decimals) an inner
`Option` records whether the parse succeeds.  Monetary `Decimal` values
are embedded as exact integers (hundredths), `datetime` values as an
explicit (day, hour, minute) record.  The SQLAlchemy session is embedded
by returning the new database state on commit and the unchanged input
state on every error return, raised exception (rollback) and
uncommitted early return.
-/

namespace Kare

/-- A Python `datetime`, at minute granularity (the granularity used by the
routes: ISO strings like `2025-12-25T14:30:00`).  `day` is the ordinal day
number; a well-formed value has `0 ≤ hour < 24` and `0 ≤ minute < 60`. -/
structure PyDateTime where
  day : Int
  hour : Int
  minute : Int
deriving DecidableEq

/-- Total minutes represented by the datetime; Python's comparison operators
on `datetime` order by instant, which for well-formed values is this value. -/
def PyDateTime.toMin (t : PyDateTime) : Int :=
  t.day * 1440 + t.hour * 60 + t.minute

/-- Python's `datetime.replace(hour=h)`: keeps day and minute, validates
`0 <= h <= 23`, raising `ValueError` (here `none`) otherwise. -/
def PyDateTime.replaceHour (t : PyDateTime) (h : Int) : Option PyDateTime :=
  if 0 ≤ h ∧ h ≤ 23 then some { t with hour := h } else none

/-- True timedelta addition of `d` hours, carrying into the day. -/
def PyDateTime.addHours (t : PyDateTime) (d : Int) : PyDateTime :=
  let m := t.toMin + d * 60
  { day := m.ediv 1440, hour := (m.emod 1440).ediv 60, minute := m.emod 60 }

/-- `Users` row (the fields the appointment routes read). -/
structure UserRec where
  id : Nat
  username : String
  is_active : Bool
deriving DecidableEq

/-- `Clients` row. -/
structure ClientRec where
  id : Nat
  name : String
  is_active : Bool
deriving DecidableEq

/-- `Services` row. -/
structure ServiceRec where
  id : Nat
  name : String
  is_active : Bool
deriving DecidableEq

/-- `Businesses` row. -/
structure BusinessRec where
  id : Nat
  is_active : Bool
deriving DecidableEq

/-- `Appointments` row. -/
structure Appointment where
  id : Nat
  user_id : Nat
  client_id : Nat
  service_id : Nat
  business_id : Nat
  date_time : PyDateTime
  status : String
deriving DecidableEq

/-- `Calendar` row. -/
structure CalendarEvent where
  id : Nat
  appointment_id : Nat
  business_id : Option Nat
  start_date_time : PyDateTime
  end_date_time : PyDateTime
  google_event_id : Option String
  last_sync : Option PyDateTime
deriving DecidableEq

/-- `Payments` row; `payment_date` is an ordinal day or `none`.  The
`Decimal` money columns are embedded as exact integer hundredths, which
Decimal addition and comparison agree with. -/
structure Payment where
  id : Nat
  client_id : Nat
  payment_method : String
  estimated_total : Int
  payments_made : Int
  payment_date : Option Int
  status : String
deriving DecidableEq

/-- The database state: the table contents plus the autoincrement
counters for the primary keys the handlers create rows under. -/
structure DB where
  users : List UserRec
  clients : List ClientRec
  services : List ServiceRec
  businesses : List BusinessRec
  appointments : List Appointment
  calendar_events : List CalendarEvent
  payments : List Payment
  next_appointment_id : Nat
  next_event_id : Nat
  next_payment_id : Nat
deriving DecidableEq

/-- `Appointments.query.get(id)`. -/
def findAppointment (db : DB) (i : Nat) : Option Appointment :=
  db.appointments.find? (fun a => a.id == i)

/-- `Calendar.query.get(id)`. -/
def findEvent (db : DB) (i : Nat) : Option CalendarEvent :=
  db.calendar_events.find? (fun e => e.id == i)

/-- `Payments.query.get(id)`. -/
def findPayment (db : DB) (i : Nat) : Option Payment :=
  db.payments.find? (fun p => p.id == i)

/-- `Businesses.query.get(id)`. -/
def findBusiness (db : DB) (i : Nat) : Option BusinessRec :=
  db.businesses.find? (fun b => b.id == i)

/-- `Clients.query.get(id)`. -/
def findClient (db : DB) (i : Nat) : Option ClientRec :=
  db.clients.find? (fun c => c.id == i)

/-- Body of `POST /api/appointments` (`create_appointment`). -/
structure BookRequest where
  user_id : Option Nat
  user_name : Option String
  client_id : Option Nat
  client_name : Option String
  service_id : Option Nat
  service_name : Option String
  business_id : Option Nat
  date_time : Option (Option PyDateTime)
  duration_hours : Option Int
  status : Option String
deriving DecidableEq

/-- User resolution in `create_appointment`: by `user_id`
(`Users.query.get`), else by `user_name` (`filter_by(username=..).first()`),
else a 400; a failed lookup is a 404. -/
def resolveUser (req : BookRequest) (db : DB) : Except Nat UserRec :=
  match req.user_id with
  | some uid =>
    match db.users.find? (fun u => u.id == uid) with
    | some u => .ok u
    | none => .error 404
  | none =>
    match req.user_name with
    | some nm =>
      match db.users.find? (fun u => u.username == nm) with
      | some u => .ok u
      | none => .error 404
    | none => .error 400

/-- Client resolution in `create_appointment` (by id, else by name). -/
def resolveClient (req : BookRequest) (db : DB) : Except Nat ClientRec :=
  match req.client_id with
  | some cid =>
    match db.clients.find? (fun c => c.id == cid) with
    | some c => .ok c
    | none => .error 404
  | none =>
    match req.client_name with
    | some nm =>
      match db.clients.find? (fun c => c.name == nm) with
      | some c => .ok c
      | none => .error 404
    | none => .error 400

/-- Service resolution in `create_appointment` (by id, else by name). -/
def resolveService (req : BookRequest) (db : DB) : Except Nat ServiceRec :=
  match req.service_id with
  | some sid =>
    match db.services.find? (fun s => s.id == sid) with
    | some s => .ok s
    | none => .error 404
  | none =>
    match req.service_name with
    | some nm =>
      match db.services.find? (fun s => s.name == nm) with
      | some s => .ok s
      | none => .error 404
    | none => .error 400

/-- The conflict filter of `create_appointment`: same employee, exactly the
same `date_time`, status in {pending, confirmed}. -/
def conflictPred (uid : Nat) (t : PyDateTime) (a : Appointment) : Bool :=
  a.user_id == uid && decide (a.date_time = t) &&
    (a.status == "pending" || a.status == "confirmed")

/-- Result of `create_appointment`: HTTP status, the created appointment and
calendar event (on 201), and the database state after the request. -/
structure BookOutcome where
  status : Nat
  appointment : Option Appointment
  event : Option CalendarEvent
  db : DB
deriving DecidableEq

/-- `POST /api/appointments` (`create_appointment` in
`routes/appointments.py`): resolves user/client/service, validates the
business, the date format, the strict-future rule and the exact-timestamp
conflict, then creates the appointment and its paired calendar event in one
transaction.  The event end is computed with
`date_time.replace(hour=date_time.hour + duration_hours)`; when that hour
falls outside 0..23 Python raises `ValueError`, caught by the generic
handler which rolls the transaction back and returns 500. -/
def create_appointment (now : PyDateTime) (req : BookRequest) (db : DB) :
    BookOutcome :=
  match req.business_id, req.date_time with
  | some bid, some dtField =>
    match resolveUser req db with
    | .error c => ⟨c, none, none, db⟩
    | .ok user =>
      if !user.is_active then ⟨400, none, none, db⟩ else
      match resolveClient req db with
      | .error c => ⟨c, none, none, db⟩
      | .ok client =>
        if !client.is_active then ⟨400, none, none, db⟩ else
        match resolveService req db with
        | .error c => ⟨c, none, none, db⟩
        | .ok service =>
          if !service.is_active then ⟨400, none, none, db⟩ else
          match findBusiness db bid with
          | none => ⟨404, none, none, db⟩
          | some business =>
            if !business.is_active then ⟨404, none, none, db⟩ else
            match dtField with
            | none => ⟨400, none, none, db⟩
            | some dt =>
              if dt.toMin ≤ now.toMin then ⟨400, none, none, db⟩ else
              match db.appointments.find? (conflictPred user.id dt) with
              | some _ => ⟨409, none, none, db⟩
              | none =>
                let appt : Appointment :=
                  ⟨db.next_appointment_id, user.id, client.id, service.id,
                    bid, dt, req.status.getD "pending"⟩
                let d := req.duration_hours.getD 1
                match dt.replaceHour (dt.hour + d) with
                | none => ⟨500, none, none, db⟩
                | some endDt =>
                  let ev : CalendarEvent :=
                    ⟨db.next_event_id, appt.id, some bid, dt, endDt,
                      none, none⟩
                  ⟨201, some appt, some ev,
                    { db with
                        appointments := db.appointments ++ [appt],
                        calendar_events := db.calendar_events ++ [ev],
                        next_appointment_id := db.next_appointment_id + 1,
                        next_event_id := db.next_event_id + 1 }⟩
  | _, _ => ⟨400, none, none, db⟩

/-- Body of `PUT /api/appointments/<id>` (`update_appointment`). -/
structure UpdateApptRequest where
  date_time : Option (Option PyDateTime)
  status : Option String
deriving DecidableEq

/-- The in-place field updates `update_appointment` performs on the found
row before the commit. -/
def applyApptUpdate (dtNew : Option PyDateTime) (stNew : Option String)
    (a : Appointment) : Appointment :=
  { a with date_time := dtNew.getD a.date_time, status := stNew.getD a.status }

/-- Result of a handler returning (status code, new database state). -/
structure StateOutcome where
  status : Nat
  db : DB
deriving DecidableEq

/-- `PUT /api/appointments/<id>` (`update_appointment`): 404 when the
appointment is missing, 400 for an empty body, an unparsable or
non-future `date_time`, or a status outside the four-value enum;
otherwise sets the given fields and commits.  No conflict re-check is
performed against other appointments. -/
def update_appointment (now : PyDateTime) (i : Nat)
    (req : UpdateApptRequest) (db : DB) : StateOutcome :=
  match findAppointment db i with
  | none => ⟨404, db⟩
  | some _ =>
    match req.date_time, req.status with
    | none, none => ⟨400, db⟩
    | dtField, stField =>
      let commit : Option PyDateTime → Option String → StateOutcome :=
        fun dtNew stNew =>
          ⟨200, { db with
              appointments := db.appointments.map (fun a =>
                if a.id == i then applyApptUpdate dtNew stNew a else a) }⟩
      let checkStatus : Option PyDateTime → StateOutcome := fun dtNew =>
        match stField with
        | none => commit dtNew none
        | some s =>
          if s == "pending" || s == "confirmed" || s == "cancelled" ||
              s == "completed" then
            commit dtNew (some s)
          else ⟨400, db⟩
      match dtField with
      | none => checkStatus none
      | some none => ⟨400, db⟩
      | some (some dt) =>
        if dt.toMin ≤ now.toMin then ⟨400, db⟩ else checkStatus (some dt)

/-- `DELETE /api/appointments/<id>` (`delete_appointment`): 404 when the
appointment is missing; otherwise sets its status to `cancelled` and
commits — the row itself is never removed. -/
def delete_appointment (i : Nat) (db : DB) : StateOutcome :=
  match findAppointment db i with
  | none => ⟨404, db⟩
  | some _ =>
    ⟨200, { db with
        appointments := db.appointments.map (fun a =>
          if a.id == i then { a with status := "cancelled" } else a) }⟩

/-- Body of `POST /api/payments` (`create_payment`). -/
structure CreatePaymentRequest where
  client_id : Option Nat
  payment_method : Option String
  estimated_total : Option (Option Int)
  payments_made : Option (Option Int)
  payment_date : Option (Option Int)
deriving DecidableEq

/-- Result of a payment handler: status, the affected payment as returned
to the caller (on success), and the database state. -/
structure PaymentOutcome where
  status : Nat
  payment : Option Payment
  db : DB
deriving DecidableEq

/-- `POST /api/payments` (`create_payment`): validates client, method,
amounts (`estimated_total > 0`, `payments_made >= 0`,
`payments_made <= estimated_total`) and the optional date, derives the
status (`paid` iff `payments_made == estimated_total`) and commits.  A
`payments_made` value `Decimal` cannot parse is converted outside the
guarded block, so it raises into the generic 500/rollback handler. -/
def create_payment (req : CreatePaymentRequest) (db : DB) : PaymentOutcome :=
  match req.client_id, req.payment_method, req.estimated_total with
  | some cid, some method, some etField =>
    match findClient db cid with
    | none => ⟨404, none, db⟩
    | some client =>
      if !client.is_active then ⟨404, none, db⟩ else
      if !(method == "cash" || method == "card") then ⟨400, none, db⟩ else
      match etField with
      | none => ⟨400, none, db⟩
      | some et =>
        if et ≤ 0 then ⟨400, none, db⟩ else
        match req.payments_made.getD (some 0) with
        | none => ⟨500, none, db⟩
        | some pm =>
          if pm < 0 then ⟨400, none, db⟩ else
          if et < pm then ⟨400, none, db⟩ else
          let mkOutcome : Option Int → PaymentOutcome := fun pd =>
            let p : Payment :=
              ⟨db.next_payment_id, cid, method, et, pm, pd,
                if pm == et then "paid" else "pending"⟩
            ⟨201, some p,
              { db with payments := db.payments ++ [p],
                        next_payment_id := db.next_payment_id + 1 }⟩
          match req.payment_date with
          | none => mkOutcome none
          | some none => ⟨400, none, db⟩
          | some (some d) => mkOutcome (some d)
  | _, _, _ => ⟨400, none, db⟩

/-- Body of `PUT /api/payments/<id>` (`update_payment`).  `payment_date`
distinguishes absent / explicit null / a parsed or unparsable value. -/
structure UpdatePaymentRequest where
  payment_method : Option String
  payments_made : Option (Option Int)
  estimated_total : Option (Option Int)
  payment_date : Option (Option (Option Int))
deriving DecidableEq

/-- The `payment_method` step of `update_payment`: absent keeps the row,
an invalid method is a 400 (`none`), a valid one is stored. -/
def updMethod : Option String → Payment → Option Payment
  | none, p => some p
  | some m, p =>
    if m == "cash" || m == "card" then some { p with payment_method := m }
    else none

/-- The `payments_made` step of `update_payment`: parse failure, a negative
value, or exceeding the stored `estimated_total` is a 400 (`none`). -/
def updPaymentsMade : Option (Option Int) → Payment → Option Payment
  | none, p => some p
  | some none, _ => none
  | some (some pm), p =>
    if pm < 0 then none else
    if p.estimated_total < pm then none else
    some { p with payments_made := pm }

/-- The `estimated_total` step of `update_payment`: parse failure, a
non-positive value, or dropping below the (possibly just updated)
`payments_made` is a 400 (`none`). -/
def updEstimatedTotal : Option (Option Int) → Payment → Option Payment
  | none, p => some p
  | some none, _ => none
  | some (some et), p =>
    if et ≤ 0 then none else
    if et < p.payments_made then none else
    some { p with estimated_total := et }

/-- The `payment_date` step of `update_payment`: an explicit null clears
the date, an unparsable value is a 400 (`none`). -/
def updPaymentDate : Option (Option (Option Int)) → Payment → Option Payment
  | none, p => some p
  | some none, p => some { p with payment_date := none }
  | some (some none), _ => none
  | some (some (some d)), p => some { p with payment_date := some d }

/-- The unconditional status recomputation closing `update_payment` and
`add_payment_to_record`: `paid` iff the totals are equal. -/
def derivePaidStatus (p : Payment) : Payment :=
  { p with status :=
      if p.payments_made == p.estimated_total then "paid" else "pending" }

/-- Committing `update_payment`: every row under the updated primary key
takes the mutated object's fields. -/
def copyPaymentFields (src tgt : Payment) : Payment :=
  { tgt with
      payment_method := src.payment_method,
      payments_made := src.payments_made,
      estimated_total := src.estimated_total,
      payment_date := src.payment_date,
      status := src.status }

/-- `PUT /api/payments/<id>` (`update_payment`): per-field validation with
early 400 returns (new `payments_made` checked against the stored
`estimated_total`, new `estimated_total` checked against the — possibly
just updated — `payments_made`), then the status is unconditionally
recomputed as `paid` iff the two totals are equal, and the row committed. -/
def update_payment (i : Nat) (req : UpdatePaymentRequest) (db : DB) :
    PaymentOutcome :=
  match findPayment db i with
  | none => ⟨404, none, db⟩
  | some p0 =>
    if req.payment_method.isNone && req.payments_made.isNone &&
        req.estimated_total.isNone && req.payment_date.isNone then
      ⟨400, none, db⟩
    else
      match updMethod req.payment_method p0 with
      | none => ⟨400, none, db⟩
      | some p1 =>
        match updPaymentsMade req.payments_made p1 with
        | none => ⟨400, none, db⟩
        | some p2 =>
          match updEstimatedTotal req.estimated_total p2 with
          | none => ⟨400, none, db⟩
          | some p3 =>
            match updPaymentDate req.payment_date p3 with
            | none => ⟨400, none, db⟩
            | some p4 =>
              ⟨200, some (derivePaidStatus p4),
                { db with payments := db.payments.map (fun q =>
                    if q.id == i then
                      copyPaymentFields (derivePaidStatus p4) q
                    else q) }⟩

/-- Body of `POST /api/payments/<id>/add-payment`
(`add_payment_to_record`). -/
structure AddPaymentRequest where
  amount : Option (Option Int)
  payment_method : Option String
  payment_date : Option (Option Int)
deriving DecidableEq

/-- The optional `payment_method` of `add_payment_to_record`: an invalid
value is silently ignored. -/
def addMethod : Option String → Payment → Payment
  | some m, p =>
    if m == "cash" || m == "card" then { p with payment_method := m } else p
  | none, p => p

/-- The optional `payment_date` of `add_payment_to_record`: present but
unparsable is a 400 (`none`). -/
def addDate : Option (Option Int) → Payment → Option Payment
  | some none, _ => none
  | some (some d), p => some { p with payment_date := some d }
  | none, p => some p

/-- Committing `add_payment_to_record`: the mutated object's fields —
`estimated_total` is never touched by this handler. -/
def copyAddFields (src tgt : Payment) : Payment :=
  { tgt with
      payment_method := src.payment_method,
      payments_made := src.payments_made,
      payment_date := src.payment_date,
      status := src.status }

/-- `POST /api/payments/<id>/add-payment` (`add_payment_to_record`):
requires a positive `amount`, rejects when the new running total would
exceed `estimated_total`, silently ignores an invalid `payment_method`,
recomputes the status (`paid` iff the totals are now equal) and commits. -/
def add_payment_to_record (i : Nat) (req : AddPaymentRequest) (db : DB) :
    PaymentOutcome :=
  match findPayment db i with
  | none => ⟨404, none, db⟩
  | some p0 =>
    match req.amount with
    | none => ⟨400, none, db⟩
    | some none => ⟨400, none, db⟩
    | some (some amount) =>
      if amount ≤ 0 then ⟨400, none, db⟩ else
      if p0.estimated_total < p0.payments_made + amount then ⟨400, none, db⟩
      else
      match addDate req.payment_date
          (addMethod req.payment_method
            { p0 with payments_made := p0.payments_made + amount }) with
      | none => ⟨400, none, db⟩
      | some p3 =>
        ⟨200, some (derivePaidStatus p3),
          { db with payments := db.payments.map (fun q =>
              if q.id == i then copyAddFields (derivePaidStatus p3) q
              else q) }⟩

/-- Python truthiness of the `google_event_id` column as used in
`data.get('google_event_id')` / `if event.google_event_id:`:
`None` and the empty string are falsy. -/
def googleTruthy : Option String → Bool
  | none => false
  | some s => !s.isEmpty

/-- Body of `POST /api/calendar` (`create_calendar_event`). -/
structure CreateEventRequest where
  appointment_id : Option Nat
  business_id : Option Nat
  start_date_time : Option (Option PyDateTime)
  end_date_time : Option (Option PyDateTime)
  google_event_id : Option String
deriving DecidableEq

/-- Result of `create_calendar_event`. -/
structure EventOutcome where
  status : Nat
  event : Option CalendarEvent
  db : DB
deriving DecidableEq

/-- `POST /api/calendar` (`create_calendar_event`): requires
`appointment_id`, `start_date_time`, `end_date_time`; 404 when the
appointment is missing, 409 when an event already exists for that
appointment (the 1:1 rule), 400 on unparsable dates or `start >= end`;
otherwise commits the new event, stamping `last_sync` only when a truthy
`google_event_id` was supplied. -/
def create_calendar_event (now : PyDateTime) (req : CreateEventRequest)
    (db : DB) : EventOutcome :=
  match req.appointment_id, req.start_date_time, req.end_date_time with
  | some aid, some sField, some eField =>
    match findAppointment db aid with
    | none => ⟨404, none, db⟩
    | some appt =>
      match db.calendar_events.find? (fun e => e.appointment_id == aid) with
      | some _ => ⟨409, none, db⟩
      | none =>
        match sField, eField with
        | some s, some e =>
          if e.toMin ≤ s.toMin then ⟨400, none, db⟩ else
          let ev : CalendarEvent :=
            ⟨db.next_event_id, aid,
              some (req.business_id.getD appt.business_id), s, e,
              req.google_event_id,
              if googleTruthy req.google_event_id then some now else none⟩
          ⟨201, some ev,
            { db with calendar_events := db.calendar_events ++ [ev],
                      next_event_id := db.next_event_id + 1 }⟩
        | _, _ => ⟨400, none, db⟩
  | _, _, _ => ⟨400, none, db⟩

/-- Body of `POST /api/calendar/<id>/sync-google`
(`sync_event_with_google`). -/
structure SyncRequest where
  access_token : Option String
  calendar_id : Option String
deriving DecidableEq

/-- The external provider's HTTP response, as the handler reads it:
the status code and the `id` field of the parsed JSON body
(`result.get('id')`). -/
structure ProviderResponse where
  status : Nat
  body_id : Option String
deriving DecidableEq

/-- `POST /api/calendar/<id>/sync-google` (`sync_event_with_google`):
404 when the event is missing, 400 without an `access_token`.  With a
truthy stored `google_event_id` it PUTs an update to the provider; any
response status other than 200 is a 400 error with no local change, and
on 200 only `last_sync` is stamped (HTTP 200).  Otherwise it POSTs a
creation; again only a 200 response succeeds, storing the returned `id`
and stamping `last_sync` (HTTP 201). -/
def sync_event_with_google (now : PyDateTime) (i : Nat) (req : SyncRequest)
    (resp : ProviderResponse) (db : DB) : StateOutcome :=
  match findEvent db i with
  | none => ⟨404, db⟩
  | some ev =>
    match req.access_token with
    | none => ⟨400, db⟩
    | some _ =>
      if googleTruthy ev.google_event_id then
        if resp.status ≠ 200 then ⟨400, db⟩ else
        ⟨200, { db with calendar_events := db.calendar_events.map (fun e =>
            if e.id == i then { e with last_sync := some now } else e) }⟩
      else
        if resp.status ≠ 200 then ⟨400, db⟩ else
        ⟨201, { db with calendar_events := db.calendar_events.map (fun e =>
            if e.id == i then
              { e with google_event_id := resp.body_id, last_sync := some now }
            else e) }⟩

/-- Number of pending/confirmed appointments for employee `uid` at the
exact instant `t`. -/
def pcCount (db : DB) (uid : Nat) (t : PyDateTime) : Nat :=
  (db.appointments.filter (conflictPred uid t)).length

/-- The scheduling invariant: at most one pending/confirmed appointment
per (employee, instant). -/
def ConflictInv (db : DB) : Prop :=
  ∀ uid t, pcCount db uid t ≤ 1

/-- The 1:1 calendar invariant: at most one calendar event per
appointment. -/
def OneEventPerAppt (db : DB) : Prop :=
  ∀ aid, (db.calendar_events.filter
    (fun e => e.appointment_id == aid)).length ≤ 1

/-- The payment invariant of the spec: the running total never exceeds
the estimate. -/
def PaymentInv (p : Payment) : Prop :=
  p.payments_made ≤ p.estimated_total

/-! Concrete fixtures used to evaluate the handlers on explicit inputs. -/

def sampleUser : UserRec := ⟨1, "juan", true⟩

def sampleClient : ClientRec := ⟨1, "maria", true⟩

def sampleService : ServiceRec := ⟨1, "corte", true⟩

def sampleBusiness : BusinessRec := ⟨1, true⟩

/-- The call instant: day 0, 12:00. -/
def sampleNow : PyDateTime := ⟨0, 12, 0⟩

/-- Tomorrow 14:30. -/
def t1430 : PyDateTime := ⟨1, 14, 30⟩

/-- Tomorrow 23:30. -/
def t2330 : PyDateTime := ⟨1, 23, 30⟩

/-- An empty store holding one active user, client, service, business. -/
def sampleDB : DB :=
  ⟨[sampleUser], [sampleClient], [sampleService], [sampleBusiness],
    [], [], [], 1, 1, 1⟩

/-- A minimal valid booking body for instant `t` (ids 1, defaults). -/
def bookReq (t : PyDateTime) : BookRequest :=
  ⟨some 1, none, some 1, none, some 1, none, some 1, some (some t),
    none, none⟩

/-- A pending appointment of employee 1 at tomorrow 14:30. -/
def conflictAppt : Appointment := ⟨7, 1, 1, 1, 1, t1430, "pending"⟩

/-- `sampleDB` with `conflictAppt` already booked. -/
def conflictDB : DB :=
  ⟨[sampleUser], [sampleClient], [sampleService], [sampleBusiness],
    [conflictAppt], [], [], 8, 1, 1⟩


/-- A pending appointment of employee 1 at day 1, 10:00, to be updated. -/
def updTargetAppt : Appointment := ⟨9, 1, 1, 1, 1, ⟨1, 10, 0⟩, "pending"⟩

/-- Store holding both `conflictAppt` (14:30) and `updTargetAppt`. -/
def updDB : DB :=
  ⟨[sampleUser], [sampleClient], [sampleService], [sampleBusiness],
    [conflictAppt, updTargetAppt], [], [], 10, 1, 1⟩

/-- Update body moving an appointment to tomorrow 14:30. -/
def updReq : UpdateApptRequest := ⟨some (some t1430), none⟩

/-- Update body with a past `date_time`. -/
def pastReq : UpdateApptRequest := ⟨some (some ⟨0, 1, 0⟩), none⟩

/-- Update body with a status outside the enumeration. -/
def badStatusReq : UpdateApptRequest := ⟨none, some "archived"⟩

/-- A valid booking body carrying an undocumented status string. -/
def garbageReq : BookRequest :=
  ⟨some 1, none, some 1, none, some 1, none, some 1, some (some t1430),
    none, some "garbage"⟩


/-- A calendar event of appointment 7, not yet synced. -/
def syncEvent : CalendarEvent := ⟨1, 7, some 1, t1430, ⟨1, 15, 30⟩, none, none⟩

/-- A store holding just `syncEvent`. -/
def syncDB : DB := ⟨[], [], [], [], [], [syncEvent], [], 1, 2, 1⟩

/-- A calendar-event creation body for appointment `aid`, `s` to `e`. -/
def cevReq (aid : Nat) (s e : PyDateTime) : CreateEventRequest :=
  ⟨some aid, none, some (some s), some (some e), none⟩

/-- `conflictDB` together with `syncEvent` for appointment 7. -/
def cevDB : DB :=
  ⟨[sampleUser], [sampleClient], [sampleService], [sampleBusiness],
    [conflictAppt], [syncEvent], [], 8, 2, 1⟩


/-- A stored payment: estimated 150.00, 50.00 made (integer hundredths). -/
def basePayment : Payment := ⟨1, 1, "card", 15000, 5000, none, "pending"⟩

/-- A store holding `sampleClient` and `basePayment`. -/
def payDB : DB :=
  ⟨[], [sampleClient], [], [], [], [], [basePayment], 1, 1, 2⟩

/-- Scenario 3: create a payment with total 150.00 fully paid. -/
def cpReq : CreatePaymentRequest :=
  ⟨some 1, some "card", some (some 15000), some (some 15000), none⟩

/-- Scenario 4: payments 200.00 exceeding total 150.00. -/
def cpBadReq : CreatePaymentRequest :=
  ⟨some 1, some "card", some (some 15000), some (some 20000), none⟩

/-- Update body raising `payments_made` to 100.00. -/
def upReq : UpdatePaymentRequest := ⟨none, some (some 10000), none, none⟩

/-- Add-payment body for another 100.00. -/
def addReq : AddPaymentRequest := ⟨some (some 10000), none, none⟩

/-! Helper lemmas. -/

lemma filter_eq_nil_of_find?_eq_none {α} {l : List α} {p : α → Bool}
    (h : l.find? p = none) : l.filter p = [] := by
  rw [List.filter_eq_nil_iff]
  exact List.find?_eq_none.mp h

/-- Every run of `create_appointment` either leaves the database unchanged
or commits exactly one appointment (with a fresh id, checked conflict-free)
together with its paired calendar event. -/
lemma create_appointment_cases (now : PyDateTime) (req : BookRequest)
    (db : DB) :
    (create_appointment now req db).db = db ∨
    ∃ a ev,
      create_appointment now req db = ⟨201, some a, some ev,
        { db with
            appointments := db.appointments ++ [a],
            calendar_events := db.calendar_events ++ [ev],
            next_appointment_id := db.next_appointment_id + 1,
            next_event_id := db.next_event_id + 1 }⟩ ∧
      db.appointments.find? (conflictPred a.user_id a.date_time) = none ∧
      a.id = db.next_appointment_id := by
  unfold create_appointment
  repeat' split
  all_goals try exact Or.inl rfl
  all_goals dsimp only
  all_goals split
  all_goals first
    | exact Or.inl rfl
    | exact Or.inr ⟨_, _, rfl, by assumption, rfl⟩

/-- C1: booking is rejected with 409 (database untouched) whenever another
pending/confirmed appointment of the same employee exists at the exact same
`date_time` and every earlier validation passes; consequently
`create_appointment` preserves the at-most-one-pending/confirmed-appointment-
per-(employee, instant) invariant. -/
theorem booking_conflict_409_and_invariant
    (now : PyDateTime) (req : BookRequest) (db : DB) :
    (∀ user client service bid business t,
      resolveUser req db = .ok user → user.is_active = true →
      resolveClient req db = .ok client → client.is_active = true →
      resolveService req db = .ok service → service.is_active = true →
      req.business_id = some bid → findBusiness db bid = some business →
      business.is_active = true →
      req.date_time = some (some t) → now.toMin < t.toMin →
      (∃ a ∈ db.appointments, conflictPred user.id t a) →
      create_appointment now req db = ⟨409, none, none, db⟩)
    ∧ (ConflictInv db → ConflictInv (create_appointment now req db).db) := by
  constructor
  · intro user client service bid business t hu hua hc hca hs hsa hbid hb hba
      hdt hfut hconf
    obtain ⟨x, hx⟩ := Option.isSome_iff_exists.mp (List.find?_isSome.mpr hconf)
    have hnle : ¬ t.toMin ≤ now.toMin := by omega
    simp only [create_appointment, hu, hua, hc, hca, hs, hsa,
      hbid, hdt, hx]
    simp [hnle, hb, hba]
  · intro hinv uid t'
    rcases create_appointment_cases now req db with h | ⟨a, ev, heq, hconf, _⟩
    · rw [h]; exact hinv uid t'
    · rw [heq]
      unfold pcCount
      simp only [List.filter_append, List.length_append]
      by_cases hp : conflictPred uid t' a
      · have h1 : a.user_id = uid ∧ a.date_time = t' := by
          unfold conflictPred at hp
          simp only [Bool.and_eq_true, beq_iff_eq, decide_eq_true_eq] at hp
          exact ⟨hp.1.1, hp.1.2⟩
        rw [← h1.1, ← h1.2]
        rw [filter_eq_nil_of_find?_eq_none hconf]
        simp [hp, h1.1, h1.2]
      · have h2 : pcCount db uid t' ≤ 1 := hinv uid t'
        unfold pcCount at h2
        simp only [List.filter_cons, List.filter_nil, hp, if_false]
        simpa using h2

/-- C1 witness: booking employee 1 again at tomorrow 14:30 over
`conflictDB` is refused with 409 and the store keeps the invariant. -/
theorem booking_conflict_409_and_invariant_witness :
    create_appointment sampleNow (bookReq t1430) conflictDB =
      ⟨409, none, none, conflictDB⟩ ∧
    ConflictInv (create_appointment sampleNow (bookReq t1430) conflictDB).db := by
  have hinv : ConflictInv conflictDB := by
    intro uid t
    exact le_trans (List.length_filter_le _ _) (by decide)
  exact ⟨(booking_conflict_409_and_invariant sampleNow (bookReq t1430)
      conflictDB).1 sampleUser sampleClient sampleService 1 sampleBusiness
      t1430 rfl rfl rfl rfl rfl rfl rfl rfl rfl rfl (by decide)
      ⟨conflictAppt, by decide, by decide⟩,
    (booking_conflict_409_and_invariant sampleNow (bookReq t1430)
      conflictDB).2 hinv⟩

/-- C2: booking is all-or-nothing — any outcome other than 201 (in
particular the 500 raised when the paired calendar event cannot be built)
leaves the database exactly as it was, and the appointment id that the
flush reserved still resolves to not-found. -/
theorem booking_all_or_nothing (now : PyDateTime) (req : BookRequest)
    (db : DB)
    (hfresh : findAppointment db db.next_appointment_id = none) :
    (create_appointment now req db).status = 201 ∨
    ((create_appointment now req db).db = db ∧
      findAppointment (create_appointment now req db).db
        db.next_appointment_id = none) := by
  rcases create_appointment_cases now req db with h | ⟨a, ev, heq, _, _⟩
  · right
    refine ⟨h, ?_⟩
    rw [h]
    exact hfresh
  · left
    rw [heq]

/-- C2 witness: booking tomorrow 23:30 over the empty store makes the
calendar-event construction fail, and nothing persists. -/
theorem booking_all_or_nothing_witness :
    (create_appointment sampleNow (bookReq t2330) sampleDB).status = 201 ∨
    ((create_appointment sampleNow (bookReq t2330) sampleDB).db = sampleDB ∧
      findAppointment (create_appointment sampleNow (bookReq t2330)
        sampleDB).db sampleDB.next_appointment_id = none) :=
  booking_all_or_nothing sampleNow (bookReq t2330) sampleDB (by decide)

/-- C3: the paired calendar event's end is computed with
`replace(hour=hour+duration)` instead of timedelta addition.  Booking
tomorrow 14:30 (default 1h) does yield an event 14:30–15:30, but booking
tomorrow 23:30 — where start + 1h crosses midnight, `addHours` giving day 2,
00:30 — raises `ValueError`, returning 500 and rolling the whole booking
back instead of creating the event the spec promises. -/
theorem booking_end_time_midnight_bug :
    (create_appointment sampleNow (bookReq t1430) sampleDB).status = 201 ∧
    (create_appointment sampleNow (bookReq t1430) sampleDB).event =
      some ⟨1, 1, some 1, t1430, ⟨1, 15, 30⟩, none, none⟩ ∧
    t2330.addHours 1 = ⟨2, 0, 30⟩ ∧
    create_appointment sampleNow (bookReq t2330) sampleDB =
      ⟨500, none, none, sampleDB⟩ := by decide

lemma find_id_isSome_map (l : List Appointment) (i : Nat)
    (g : Appointment → Appointment) (hg : ∀ a, (g a).id = a.id) :
    ((l.map g).find? (fun a => a.id == i)).isSome =
      (l.find? (fun a => a.id == i)).isSome := by
  have hp : ((fun a : Appointment => a.id == i) ∘ g) =
      fun a : Appointment => a.id == i := by
    funext a
    simp [Function.comp, hg]
  rw [List.find?_map, hp]
  cases l.find? (fun a => a.id == i) <;> rfl

/-- C8: cancellation is idempotent and never deletes: cancelling an
existing appointment succeeds with 200 and sets its status to `cancelled`,
cancelling again returns the identical outcome on the identical store, and
the appointment count never changes. -/
theorem cancel_idempotent_never_deletes (i : Nat) (db : DB) :
    ((findAppointment db i).isSome →
      (delete_appointment i db).status = 200 ∧
      ∀ b ∈ (delete_appointment i db).db.appointments,
        b.id = i → b.status = "cancelled")
    ∧ delete_appointment i (delete_appointment i db).db =
        delete_appointment i db
    ∧ (delete_appointment i db).db.appointments.length =
        db.appointments.length := by
  have hg : ∀ a : Appointment,
      ((fun a : Appointment =>
        if a.id == i then { a with status := "cancelled" } else a) a).id
        = a.id := by
    intro a
    by_cases h : a.id == i <;> simp [h]
  refine ⟨?_, ?_, ?_⟩
  · intro hs
    obtain ⟨a0, ha0⟩ := Option.isSome_iff_exists.mp hs
    unfold delete_appointment
    simp only [ha0]
    refine ⟨by trivial, ?_⟩
    intro b hb hbid
    simp only [List.mem_map] at hb
    obtain ⟨a', ha', rfl⟩ := hb
    by_cases h' : a'.id == i
    · simp [h']
    · simp only [h', if_false] at hbid ⊢
      exact absurd (beq_iff_eq.mpr hbid) (by simpa using h')
  · cases h : findAppointment db i with
    | none => unfold delete_appointment; simp [h]
    | some a0 =>
      unfold delete_appointment
      simp only [h]
      have hs2 : (findAppointment
          { db with appointments := db.appointments.map (fun a =>
              if a.id == i then { a with status := "cancelled" } else a) }
          i).isSome := by
        unfold findAppointment
        rw [find_id_isSome_map _ _ _ hg]
        simp [show (db.appointments.find? (fun a => a.id == i)) = some a0
          from h]
      obtain ⟨b0, hb0⟩ := Option.isSome_iff_exists.mp hs2
      have hgg : ((fun a : Appointment =>
            if a.id == i then { a with status := "cancelled" } else a) ∘
          (fun a : Appointment =>
            if a.id == i then { a with status := "cancelled" } else a)) =
          fun a : Appointment =>
            if a.id == i then { a with status := "cancelled" } else a := by
        funext a
        by_cases h' : a.id == i <;> simp [Function.comp, h']
      simp only [hb0]
      congr 1
      congr 1
      rw [List.map_map, hgg]
  · cases h : findAppointment db i with
    | none => unfold delete_appointment; simp [h]
    | some a0 => unfold delete_appointment; simp [h]


/-- C8 witness: cancelling appointment 7 of `conflictDB` succeeds, marks it
cancelled, and a second cancellation is a no-op. -/
theorem cancel_idempotent_never_deletes_witness :
    (delete_appointment 7 conflictDB).status = 200 ∧
    (∀ b ∈ (delete_appointment 7 conflictDB).db.appointments,
      b.id = 7 → b.status = "cancelled") ∧
    delete_appointment 7 (delete_appointment 7 conflictDB).db =
      delete_appointment 7 conflictDB ∧
    (delete_appointment 7 conflictDB).db.appointments.length =
      conflictDB.appointments.length := by
  obtain ⟨h1, h2, h3⟩ := cancel_idempotent_never_deletes 7 conflictDB
  obtain ⟨ha, hb⟩ := h1 (by decide)
  exact ⟨ha, hb, h2, h3⟩

theorem update_no_conflict_recheck (now : PyDateTime) (i : Nat)
    (req : UpdateApptRequest) (db : DB) :
    (∀ a t, findAppointment db i = some a →
      req.date_time = some (some t) → now.toMin < t.toMin →
      (req.status = none ∨
        ∃ s, req.status = some s ∧
          (s == "pending" || s == "confirmed" || s == "cancelled" ||
            s == "completed") = true) →
      (∃ other ∈ db.appointments, conflictPred a.user_id t other) →
      (update_appointment now i req db).status = 200 ∧
      ∀ b ∈ (update_appointment now i req db).db.appointments,
        b.id = i → b.date_time = t)
    ∧ (∀ t, req.date_time = some (some t) → t.toMin ≤ now.toMin →
        (update_appointment now i req db).db = db ∧
        (update_appointment now i req db).status ≠ 200)
    ∧ (∀ s, req.status = some s →
        (s == "pending" || s == "confirmed" || s == "cancelled" ||
          s == "completed") = false →
        (update_appointment now i req db).db = db ∧
        (update_appointment now i req db).status ≠ 200) := by
  refine ⟨?_, ?_, ?_⟩
  · intro a t hf hdt hfut hst _
    have hnle : ¬ t.toMin ≤ now.toMin := by omega
    have hb : ∀ dtNew stNew,
        ∀ b ∈ (db.appointments.map (fun x =>
          if x.id == i then applyApptUpdate (some dtNew) stNew x else x)),
          b.id = i → b.date_time = dtNew := by
      intro dtNew stNew b hbm hbid
      simp only [List.mem_map] at hbm
      obtain ⟨x, hx, rfl⟩ := hbm
      by_cases h' : x.id == i
      · simp [h', applyApptUpdate]
      · simp only [h', if_false] at hbid ⊢
        exact absurd (beq_iff_eq.mpr hbid) (by simpa using h')
    rcases hst with hnone | ⟨s, hs, hvalid⟩
    · simp only [update_appointment, hf, hdt, hnone, hnle, if_false]
      exact ⟨by simp, hb t none⟩
    · simp only [update_appointment, hf, hdt, hs, hnle, if_false, hvalid,
        if_true]
      exact ⟨by simp, hb t (some s)⟩
  · intro t hdt hle
    cases hf : findAppointment db i with
    | none => simp [update_appointment, hf]
    | some a =>
      simp only [update_appointment, hf, hdt, hle, if_true]
      exact ⟨by simp, by simp⟩
  · intro s hs hinvalid
    cases hf : findAppointment db i with
    | none => simp [update_appointment, hf]
    | some a =>
      rcases hdt : req.date_time with _ | ⟨_ | t⟩
      · simp only [update_appointment, hf, hdt, hs, hinvalid, if_false]
        exact ⟨by simp, by simp⟩
      · simp only [update_appointment, hf, hdt, hs]
        exact ⟨by simp, by simp⟩
      · by_cases hle : t.toMin ≤ now.toMin
        · simp only [update_appointment, hf, hdt, hs, hle, if_true]
          exact ⟨by simp, by simp⟩
        · simp only [update_appointment, hf, hdt, hs, hle, if_false,
            hinvalid]
          exact ⟨by simp, by simp⟩


/-- C9 witness: over `updDB`, moving appointment 9 onto the occupied slot
14:30 succeeds; a past date or status "archived" is rejected unchanged. -/
theorem update_no_conflict_recheck_witness :
    ((update_appointment sampleNow 9 updReq updDB).status = 200 ∧
      ∀ b ∈ (update_appointment sampleNow 9 updReq updDB).db.appointments,
        b.id = 9 → b.date_time = t1430) ∧
    ((update_appointment sampleNow 9 pastReq updDB).db = updDB ∧
      (update_appointment sampleNow 9 pastReq updDB).status ≠ 200) ∧
    ((update_appointment sampleNow 9 badStatusReq updDB).db = updDB ∧
      (update_appointment sampleNow 9 badStatusReq updDB).status ≠ 200) :=
  ⟨(update_no_conflict_recheck sampleNow 9 updReq updDB).1 updTargetAppt
      t1430 (by decide) rfl (by decide) (Or.inl rfl)
      ⟨conflictAppt, by decide, by decide⟩,
    (update_no_conflict_recheck sampleNow 9 pastReq updDB).2.1 ⟨0, 1, 0⟩
      rfl (by decide),
    (update_no_conflict_recheck sampleNow 9 badStatusReq updDB).2.2
      "archived" rfl (by decide)⟩

/-- C10: `create_appointment` never validates the optional `status` field:
an otherwise-valid booking carrying an arbitrary status string `s` is
committed with exactly that status. -/
theorem booking_status_not_validated (now : PyDateTime) (req : BookRequest)
    (db : DB) (user : UserRec) (client : ClientRec) (service : ServiceRec)
    (bid : Nat) (business : BusinessRec) (t endDt : PyDateTime) (s : String)
    (hu : resolveUser req db = .ok user) (hua : user.is_active = true)
    (hc : resolveClient req db = .ok client) (hca : client.is_active = true)
    (hs : resolveService req db = .ok service) (hsa : service.is_active = true)
    (hbid : req.business_id = some bid)
    (hb : findBusiness db bid = some business)
    (hba : business.is_active = true)
    (hdt : req.date_time = some (some t)) (hfut : now.toMin < t.toMin)
    (hconf : db.appointments.find? (conflictPred user.id t) = none)
    (hdur : t.replaceHour (t.hour + req.duration_hours.getD 1) = some endDt)
    (hst : req.status = some s) :
    (create_appointment now req db).status = 201 ∧
    (create_appointment now req db).appointment =
      some ⟨db.next_appointment_id, user.id, client.id, service.id, bid,
        t, s⟩ ∧
    (⟨db.next_appointment_id, user.id, client.id, service.id, bid, t, s⟩ :
        Appointment) ∈ (create_appointment now req db).db.appointments := by
  have hnle : ¬ t.toMin ≤ now.toMin := by omega
  simp only [create_appointment, hu, hua, hc, hca, hs, hsa, hbid, hdt,
    hconf, hdur, hst]
  simp [hnle, hb, hba]

/-- C10 witness: booking with status "garbage" persists that status. -/
theorem booking_status_not_validated_witness :
    (create_appointment sampleNow garbageReq sampleDB).status = 201 ∧
    (create_appointment sampleNow garbageReq sampleDB).appointment =
      some ⟨1, 1, 1, 1, 1, t1430, "garbage"⟩ ∧
    (⟨1, 1, 1, 1, 1, t1430, "garbage"⟩ : Appointment) ∈
      (create_appointment sampleNow garbageReq sampleDB).db.appointments :=
  booking_status_not_validated sampleNow garbageReq sampleDB sampleUser
    sampleClient sampleService 1 sampleBusiness t1430 ⟨1, 15, 30⟩ "garbage"
    rfl rfl rfl rfl rfl rfl rfl rfl rfl rfl (by decide) rfl (by decide) rfl

/-- Every run of `create_calendar_event` either leaves the database
unchanged or appends exactly one event for an appointment that had none. -/
lemma create_calendar_event_cases (now : PyDateTime)
    (req : CreateEventRequest) (db : DB) :
    (create_calendar_event now req db).db = db ∨
    ∃ ev,
      create_calendar_event now req db = ⟨201, some ev,
        { db with calendar_events := db.calendar_events ++ [ev],
                  next_event_id := db.next_event_id + 1 }⟩ ∧
      db.calendar_events.find?
        (fun e => e.appointment_id == ev.appointment_id) = none := by
  unfold create_calendar_event
  repeat' split
  all_goals first
    | exact Or.inl rfl
    | exact Or.inr ⟨_, rfl, by assumption⟩

/-- C5: `create_calendar_event` returns 404 when the referenced appointment
does not exist, 409 when an event for it already exists, 400 when
`start >= end` — each leaving the store unchanged — and therefore preserves
the at-most-one-event-per-appointment invariant. -/
theorem create_event_validations_one_to_one (now : PyDateTime)
    (req : CreateEventRequest) (db : DB) :
    (∀ aid sF eF, req.appointment_id = some aid →
      req.start_date_time = some sF → req.end_date_time = some eF →
      findAppointment db aid = none →
      create_calendar_event now req db = ⟨404, none, db⟩)
    ∧ (∀ aid sF eF appt ex, req.appointment_id = some aid →
      req.start_date_time = some sF → req.end_date_time = some eF →
      findAppointment db aid = some appt →
      db.calendar_events.find? (fun e => e.appointment_id == aid) =
        some ex →
      create_calendar_event now req db = ⟨409, none, db⟩)
    ∧ (∀ aid s e appt, req.appointment_id = some aid →
      req.start_date_time = some (some s) →
      req.end_date_time = some (some e) →
      findAppointment db aid = some appt →
      db.calendar_events.find? (fun x => x.appointment_id == aid) = none →
      e.toMin ≤ s.toMin →
      create_calendar_event now req db = ⟨400, none, db⟩)
    ∧ (OneEventPerAppt db →
        OneEventPerAppt (create_calendar_event now req db).db) := by
  refine ⟨?_, ?_, ?_, ?_⟩
  · intro aid sF eF haid hsF heF hf
    simp [create_calendar_event, haid, hsF, heF, hf]
  · intro aid sF eF appt ex haid hsF heF hf hex
    simp [create_calendar_event, haid, hsF, heF, hf, hex]
  · intro aid s e appt haid hsF heF hf hnone hle
    simp [create_calendar_event, haid, hsF, heF, hf, hnone, hle]
  · intro hinv aid'
    rcases create_calendar_event_cases now req db with
      h | ⟨ev, heq, hnone⟩
    · rw [h]; exact hinv aid'
    · rw [heq]
      simp only [List.filter_append, List.length_append]
      by_cases hp : (ev.appointment_id == aid') = true
      · have h1 : ev.appointment_id = aid' := beq_iff_eq.mp hp
        rw [← h1]
        rw [filter_eq_nil_of_find?_eq_none hnone]
        simp
      · have h2 := hinv aid'
        simp only [List.filter_cons, List.filter_nil, hp, if_false]
        simpa using h2

/-- C5 witness: the three rejections and the preserved invariant at
concrete stores. -/
theorem create_event_validations_one_to_one_witness :
    create_calendar_event sampleNow (cevReq 3 t1430 t2330) sampleDB =
      ⟨404, none, sampleDB⟩ ∧
    create_calendar_event sampleNow (cevReq 7 t1430 t2330) cevDB =
      ⟨409, none, cevDB⟩ ∧
    create_calendar_event sampleNow (cevReq 7 t1430 t1430) conflictDB =
      ⟨400, none, conflictDB⟩ ∧
    OneEventPerAppt
      (create_calendar_event sampleNow (cevReq 7 t1430 t2330)
        conflictDB).db :=
  ⟨(create_event_validations_one_to_one sampleNow (cevReq 3 t1430 t2330)
      sampleDB).1 3 (some t1430) (some t2330) rfl rfl rfl (by decide),
    (create_event_validations_one_to_one sampleNow (cevReq 7 t1430 t2330)
      cevDB).2.1 7 (some t1430) (some t2330) conflictAppt syncEvent
      rfl rfl rfl (by decide) (by decide),
    (create_event_validations_one_to_one sampleNow (cevReq 7 t1430 t1430)
      conflictDB).2.2.1 7 t1430 t1430 conflictAppt rfl rfl rfl
      (by decide) (by decide) (by decide),
    (create_event_validations_one_to_one sampleNow (cevReq 7 t1430 t2330)
      conflictDB).2.2.2
      (fun aid => le_trans (List.length_filter_le _ _) (by decide))⟩

/-- C6 counterexample: with no stored external id and the provider
answering status 201 with id "abc123", the sync call returns an error and
leaves the event untouched — the external id is not stored. -/
theorem sync_201_response_rejected :
    sync_event_with_google sampleNow 1 ⟨some "tok", none⟩
      ⟨201, some "abc123"⟩ syncDB = ⟨400, syncDB⟩ := by decide

/-- C6 (amended): the create path of the sync succeeds only on a provider
status of exactly 200; then it stores the returned id on the event and
stamps `last_sync`, answering 201. -/
theorem sync_create_path_requires_200 (now : PyDateTime) (i : Nat)
    (req : SyncRequest) (resp : ProviderResponse) (db : DB)
    (ev : CalendarEvent) (tok : String)
    (hf : findEvent db i = some ev)
    (hno : googleTruthy ev.google_event_id = false)
    (htok : req.access_token = some tok)
    (h200 : resp.status = 200) :
    (sync_event_with_google now i req resp db).status = 201 ∧
    ∀ e ∈ (sync_event_with_google now i req resp db).db.calendar_events,
      e.id = i → e.google_event_id = resp.body_id ∧
        e.last_sync = some now := by
  simp only [sync_event_with_google, hf, htok, hno, h200]
  simp only [Bool.false_eq_true, if_false, ne_eq, not_true_eq_false]
  refine ⟨by simp, ?_⟩
  intro e he hid
  simp only [List.mem_map] at he
  obtain ⟨x, hx, rfl⟩ := he
  by_cases h' : x.id == i
  · simp [h']
  · simp only [h', if_false] at hid ⊢
    exact absurd (beq_iff_eq.mpr hid) (by simpa using h')

/-- C6 witness: a 200 provider response carrying id "abc123" makes the
sync store that id and stamp the sync instant. -/
theorem sync_create_path_requires_200_witness :
    (sync_event_with_google sampleNow 1 ⟨some "tok", none⟩
      ⟨200, some "abc123"⟩ syncDB).status = 201 ∧
    ∀ e ∈ (sync_event_with_google sampleNow 1 ⟨some "tok", none⟩
      ⟨200, some "abc123"⟩ syncDB).db.calendar_events,
      e.id = 1 → e.google_event_id = some "abc123" ∧
        e.last_sync = some sampleNow :=
  sync_create_path_requires_200 sampleNow 1 ⟨some "tok", none⟩
    ⟨200, some "abc123"⟩ syncDB syncEvent "tok" rfl rfl rfl rfl

/-- C7: on either sync path, any provider response with status other than
200 is surfaced as a 400 error with the database — in particular the
event's `google_event_id` and `last_sync` — completely unchanged. -/
theorem sync_failure_no_mutation (now : PyDateTime) (i : Nat)
    (req : SyncRequest) (resp : ProviderResponse) (db : DB)
    (ev : CalendarEvent) (tok : String)
    (hf : findEvent db i = some ev)
    (htok : req.access_token = some tok)
    (hne : resp.status ≠ 200) :
    sync_event_with_google now i req resp db = ⟨400, db⟩ := by
  simp only [sync_event_with_google, hf, htok]
  cases googleTruthy ev.google_event_id <;> simp [hne]

/-- C7 witness: a 500 provider response leaves `syncDB` unchanged. -/
theorem sync_failure_no_mutation_witness :
    sync_event_with_google sampleNow 1 ⟨some "tok", none⟩ ⟨500, none⟩
      syncDB = ⟨400, syncDB⟩ :=
  sync_failure_no_mutation sampleNow 1 ⟨some "tok", none⟩ ⟨500, none⟩
    syncDB syncEvent "tok" rfl rfl (by decide)

lemma updMethod_fields {f : Option String} {p q : Payment}
    (h : updMethod f p = some q) :
    q.payments_made = p.payments_made ∧
    q.estimated_total = p.estimated_total := by
  cases f with
  | none =>
    simp only [updMethod, Option.some.injEq] at h
    subst h
    exact ⟨rfl, rfl⟩
  | some m =>
    simp only [updMethod] at h
    split at h
    · simp only [Option.some.injEq] at h
      subst h
      exact ⟨rfl, rfl⟩
    · cases h

lemma updPaymentsMade_fields {f : Option (Option Int)} {p q : Payment}
    (h : updPaymentsMade f p = some q) :
    (q.payments_made ≤ p.estimated_total ∨
      q.payments_made = p.payments_made) ∧
    q.estimated_total = p.estimated_total := by
  cases f with
  | none =>
    simp only [updPaymentsMade, Option.some.injEq] at h
    subst h
    exact ⟨Or.inr rfl, rfl⟩
  | some o =>
    cases o with
    | none => simp [updPaymentsMade] at h
    | some pm =>
      simp only [updPaymentsMade] at h
      split at h
      · cases h
      · split at h
        · cases h
        · simp only [Option.some.injEq] at h
          subst h
          rename_i hlt
          exact ⟨Or.inl (not_lt.mp hlt), rfl⟩

lemma updEstimatedTotal_fields {f : Option (Option Int)} {p q : Payment}
    (h : updEstimatedTotal f p = some q) :
    q.payments_made = p.payments_made ∧
    (p.payments_made ≤ q.estimated_total ∨
      q.estimated_total = p.estimated_total) := by
  cases f with
  | none =>
    simp only [updEstimatedTotal, Option.some.injEq] at h
    subst h
    exact ⟨rfl, Or.inr rfl⟩
  | some o =>
    cases o with
    | none => simp [updEstimatedTotal] at h
    | some et =>
      simp only [updEstimatedTotal] at h
      split at h
      · cases h
      · split at h
        · cases h
        · simp only [Option.some.injEq] at h
          subst h
          rename_i hlt
          exact ⟨rfl, Or.inl (not_lt.mp hlt)⟩

lemma updPaymentDate_fields {f : Option (Option (Option Int))}
    {p q : Payment} (h : updPaymentDate f p = some q) :
    q.payments_made = p.payments_made ∧
    q.estimated_total = p.estimated_total := by
  cases f with
  | none =>
    simp only [updPaymentDate, Option.some.injEq] at h
    subst h
    exact ⟨rfl, rfl⟩
  | some o =>
    cases o with
    | none =>
      simp only [updPaymentDate, Option.some.injEq] at h
      subst h
      exact ⟨rfl, rfl⟩
    | some o2 =>
      cases o2 with
      | none => simp [updPaymentDate] at h
      | some d =>
        simp only [updPaymentDate, Option.some.injEq] at h
        subst h
        exact ⟨rfl, rfl⟩

lemma derivePaidStatus_fields (p : Payment) :
    (derivePaidStatus p).payments_made = p.payments_made ∧
    (derivePaidStatus p).estimated_total = p.estimated_total ∧
    ((derivePaidStatus p).status = "paid" ↔
      p.payments_made = p.estimated_total) := by
  refine ⟨rfl, rfl, ?_⟩
  by_cases h : p.payments_made = p.estimated_total <;>
    simp [derivePaidStatus, h]

lemma addMethod_fields (f : Option String) (p : Payment) :
    (addMethod f p).payments_made = p.payments_made ∧
    (addMethod f p).estimated_total = p.estimated_total := by
  cases f with
  | none => exact ⟨rfl, rfl⟩
  | some m =>
    simp only [addMethod]
    split
    · exact ⟨rfl, rfl⟩
    · exact ⟨rfl, rfl⟩

lemma addDate_fields {f : Option (Option Int)} {p q : Payment}
    (h : addDate f p = some q) :
    q.payments_made = p.payments_made ∧
    q.estimated_total = p.estimated_total := by
  cases f with
  | none =>
    simp only [addDate, Option.some.injEq] at h
    subst h
    exact ⟨rfl, rfl⟩
  | some o =>
    cases o with
    | none => simp [addDate] at h
    | some d =>
      simp only [addDate, Option.some.injEq] at h
      subst h
      exact ⟨rfl, rfl⟩

/-- Every run of `create_payment` either leaves the database unchanged or
appends one payment whose totals were validated and whose status was
derived; the appended row's amounts come from the request. -/
lemma create_payment_cases (req : CreatePaymentRequest) (db : DB) :
    ((create_payment req db).db = db ∧
      (create_payment req db).status ≠ 201) ∨
    ∃ p,
      create_payment req db = ⟨201, some p,
        { db with payments := db.payments ++ [p],
                  next_payment_id := db.next_payment_id + 1 }⟩ ∧
      p.payments_made ≤ p.estimated_total ∧
      req.estimated_total = some (some p.estimated_total) ∧
      req.payments_made.getD (some 0) = some p.payments_made ∧
      (p.status = "paid" ↔ p.payments_made = p.estimated_total) := by
  unfold create_payment
  repeat' split
  all_goals first
    | (left; constructor <;> (simp; done))
    | skip
  all_goals try dsimp only
  all_goals try simp_all only [not_lt]
  all_goals refine Or.inr ⟨_, rfl, by assumption, rfl, rfl, ?_⟩
  all_goals simp_all

/-- Every run of `add_payment_to_record` either leaves the database
unchanged or commits the found payment with the increased running total. -/
lemma add_payment_cases (i : Nat) (req : AddPaymentRequest) (db : DB) :
    ((add_payment_to_record i req db).db = db ∧
      (add_payment_to_record i req db).status ≠ 200) ∨
    ∃ p0 amount p3,
      findPayment db i = some p0 ∧
      req.amount = some (some amount) ∧
      ¬ p0.estimated_total < p0.payments_made + amount ∧
      addDate req.payment_date
        (addMethod req.payment_method
          { p0 with payments_made := p0.payments_made + amount }) =
        some p3 ∧
      add_payment_to_record i req db = ⟨200, some (derivePaidStatus p3),
        { db with payments := db.payments.map (fun q =>
            if q.id == i then copyAddFields (derivePaidStatus p3) q
            else q) }⟩ := by
  unfold add_payment_to_record
  repeat' split
  all_goals first
    | (left; constructor <;> (simp; done))
    | skip
  all_goals rename_i x1 p0 hfind x2 d hamt hpos hle x3 p3 hdate
  all_goals exact Or.inr ⟨p0, d, p3, hfind, hamt, hle, hdate, rfl⟩

/-- Every run of `update_payment` either leaves the database unchanged or
commits the found payment transformed by the four field steps and the
status derivation. -/
lemma update_payment_cases (i : Nat) (req : UpdatePaymentRequest)
    (db : DB) :
    ((update_payment i req db).db = db ∧
      (update_payment i req db).status ≠ 200) ∨
    ∃ p0 p1 p2 p3 p4,
      findPayment db i = some p0 ∧
      updMethod req.payment_method p0 = some p1 ∧
      updPaymentsMade req.payments_made p1 = some p2 ∧
      updEstimatedTotal req.estimated_total p2 = some p3 ∧
      updPaymentDate req.payment_date p3 = some p4 ∧
      update_payment i req db = ⟨200, some (derivePaidStatus p4),
        { db with payments := db.payments.map (fun q =>
            if q.id == i then copyPaymentFields (derivePaidStatus p4) q
            else q) }⟩ := by
  unfold update_payment
  cases hfind : findPayment db i with
  | none => exact Or.inl ⟨rfl, by simp⟩
  | some p0 =>
    try dsimp only
    by_cases hempty : (req.payment_method.isNone && req.payments_made.isNone
        && req.estimated_total.isNone && req.payment_date.isNone) = true
    · rw [if_pos hempty]
      exact Or.inl ⟨rfl, by simp⟩
    · rw [if_neg hempty]
      cases h1 : updMethod req.payment_method p0 with
      | none => exact Or.inl ⟨rfl, by simp⟩
      | some p1 =>
        try dsimp only
        cases h2 : updPaymentsMade req.payments_made p1 with
        | none => exact Or.inl ⟨rfl, by simp⟩
        | some p2 =>
          try dsimp only
          cases h3 : updEstimatedTotal req.estimated_total p2 with
          | none => exact Or.inl ⟨rfl, by simp⟩
          | some p3 =>
            try dsimp only
            cases h4 : updPaymentDate req.payment_date p3 with
            | none => exact Or.inl ⟨rfl, by simp⟩
            | some p4 =>
              try dsimp only
              exact Or.inr
                ⟨p0, p1, p2, p3, p4, rfl, h1, h2, h3, h4, rfl⟩

/-- C4: after every successful payment create, update, or add-payment,
the affected row satisfies `paymentsMade <= estimatedTotal` and its status
is `paid` iff the totals are equal (the update needs the row to satisfy the
bound beforehand when neither amount field is touched; the add needs the
store's primary keys to be unique, as every stored row only establishes it
for itself); a create whose `payments_made` exceeds `estimated_total` is
rejected with nothing persisted. -/
theorem payment_invariant_all_writes (db : DB) :
    (∀ req : CreatePaymentRequest,
      ((create_payment req db).status = 201 →
        ∃ p, (create_payment req db).payment = some p ∧ PaymentInv p ∧
          (p.status = "paid" ↔ p.payments_made = p.estimated_total) ∧
          p ∈ (create_payment req db).db.payments) ∧
      (∀ et pm, req.estimated_total = some (some et) →
        req.payments_made = some (some pm) → et < pm →
        (create_payment req db).status ≠ 201 ∧
        (create_payment req db).db = db))
    ∧ (∀ i (req : UpdatePaymentRequest),
        (∀ q ∈ db.payments, q.id = i → PaymentInv q) →
        (update_payment i req db).status = 200 →
        ∀ q ∈ (update_payment i req db).db.payments, q.id = i →
          PaymentInv q ∧
          (q.status = "paid" ↔ q.payments_made = q.estimated_total))
    ∧ (∀ i (req : AddPaymentRequest),
        (∀ a b, a ∈ db.payments → b ∈ db.payments → a.id = b.id → a = b) →
        (add_payment_to_record i req db).status = 200 →
        ∀ q ∈ (add_payment_to_record i req db).db.payments, q.id = i →
          PaymentInv q ∧
          (q.status = "paid" ↔ q.payments_made = q.estimated_total)) := by
  refine ⟨?_, ?_, ?_⟩
  · intro req
    constructor
    · intro h201
      rcases create_payment_cases req db with ⟨_, hne⟩ |
        ⟨p, heq, hble, _, _, hiff⟩
      · exact absurd h201 hne
      · refine ⟨p, ?_, hble, hiff, ?_⟩
        · rw [heq]
        · rw [heq]
          simp
    · intro et pm het hpm hlt
      rcases create_payment_cases req db with ⟨hdb, hne⟩ |
        ⟨p, heq, hble, hret, hrpm, _⟩
      · exact ⟨hne, hdb⟩
      · exfalso
        rw [het] at hret
        rw [hpm] at hrpm
        simp only [Option.some.injEq, Option.getD_some] at hret hrpm
        omega
  · intro i req hpre h200 q hq hqi
    rcases update_payment_cases i req db with ⟨_, hne⟩ |
      ⟨p0, p1, p2, p3, p4, hfind, h1, h2, h3, h4, heq⟩
    · exact absurd h200 hne
    · obtain ⟨hm1, hm2⟩ := updMethod_fields h1
      obtain ⟨hb2, he2⟩ := updPaymentsMade_fields h2
      obtain ⟨hp3, hb3⟩ := updEstimatedTotal_fields h3
      obtain ⟨hp4, he4⟩ := updPaymentDate_fields h4
      obtain ⟨hd1, hd2, hdiff⟩ := derivePaidStatus_fields p4
      have hfind' : db.payments.find? (fun p => p.id == i) = some p0 := hfind
      have hp0mem : p0 ∈ db.payments := List.mem_of_find?_eq_some hfind'
      have hp0id : p0.id = i := by
        have := List.find?_some hfind'
        simpa using this
      have hp0 : p0.payments_made ≤ p0.estimated_total :=
        hpre p0 hp0mem hp0id
      have hinv5 : (derivePaidStatus p4).payments_made ≤
          (derivePaidStatus p4).estimated_total := by
        rw [hd1, hd2]
        rcases hb3 with h | h <;> rcases hb2 with h' | h' <;> omega
      have hiff5 : (derivePaidStatus p4).status = "paid" ↔
          (derivePaidStatus p4).payments_made =
            (derivePaidStatus p4).estimated_total := by
        rw [hd1, hd2]
        exact hdiff
      rw [heq] at hq
      simp only [List.mem_map] at hq
      obtain ⟨x, hx, rfl⟩ := hq
      by_cases hxi : (x.id == i) = true
      · simp only [hxi, if_true] at hqi ⊢
        exact ⟨hinv5, hiff5⟩
      · simp only [hxi, if_false] at hqi
        exact absurd (beq_iff_eq.mpr hqi) (by simpa using hxi)
  · intro i req huniq h200 q hq hqi
    rcases add_payment_cases i req db with ⟨_, hne⟩ |
      ⟨p0, amount, p3, hfind, hamt, hle, hdate, heq⟩
    · exact absurd h200 hne
    · obtain ⟨ha1, ha2⟩ := addDate_fields hdate
      obtain ⟨hb1, hb2⟩ := addMethod_fields req.payment_method
        { p0 with payments_made := p0.payments_made + amount }
      obtain ⟨hd1, hd2, hdiff⟩ := derivePaidStatus_fields p3
      have hfind' : db.payments.find? (fun p => p.id == i) = some p0 := hfind
      have hp0mem : p0 ∈ db.payments := List.mem_of_find?_eq_some hfind'
      have hp0id : p0.id = i := by
        have := List.find?_some hfind'
        simpa using this
      have hx1 : ({ p0 with payments_made :=
          p0.payments_made + amount } : Payment).payments_made =
          p0.payments_made + amount := rfl
      have hx2 : ({ p0 with payments_made :=
          p0.payments_made + amount } : Payment).estimated_total =
          p0.estimated_total := rfl
      have hp3pm : p3.payments_made = p0.payments_made + amount := by
        omega
      have hp3et : p3.estimated_total = p0.estimated_total := by
        omega
      rw [heq] at hq
      simp only [List.mem_map] at hq
      obtain ⟨x, hx, rfl⟩ := hq
      by_cases hxi : (x.id == i) = true
      · simp only [hxi, if_true] at hqi ⊢
        have hxp0 : x = p0 := huniq x p0 hx hp0mem (by
          have hxid : x.id = i := beq_iff_eq.mp hxi
          rw [hxid, hp0id])
        subst hxp0
        constructor
        · show (derivePaidStatus p3).payments_made ≤ x.estimated_total
          omega
        · show (derivePaidStatus p3).status = "paid" ↔
            (derivePaidStatus p3).payments_made = x.estimated_total
          rw [hd1]
          constructor
          · intro hs
            have := hdiff.mp hs
            omega
          · intro hs
            apply hdiff.mpr
            omega
      · simp only [hxi, if_false] at hqi
        exact absurd (beq_iff_eq.mpr hqi) (by simpa using hxi)

/-- C4 witness: Scenario 3 creates a `paid` payment, Scenario 4 is
rejected unchanged, and an update to 100.00 / an add of 100.00 over
`payDB` both leave the affected row satisfying the invariant. -/
theorem payment_invariant_all_writes_witness :
    (∃ p, (create_payment cpReq payDB).payment = some p ∧ PaymentInv p ∧
      (p.status = "paid" ↔ p.payments_made = p.estimated_total) ∧
      p ∈ (create_payment cpReq payDB).db.payments) ∧
    ((create_payment cpBadReq payDB).status ≠ 201 ∧
      (create_payment cpBadReq payDB).db = payDB) ∧
    (∀ q ∈ (update_payment 1 upReq payDB).db.payments, q.id = 1 →
      PaymentInv q ∧
      (q.status = "paid" ↔ q.payments_made = q.estimated_total)) ∧
    (∀ q ∈ (add_payment_to_record 1 addReq payDB).db.payments, q.id = 1 →
      PaymentInv q ∧
      (q.status = "paid" ↔ q.payments_made = q.estimated_total)) := by
  have huniq : ∀ a b : Payment, a ∈ payDB.payments → b ∈ payDB.payments →
      a.id = b.id → a = b := by
    intro a b ha hb _
    simp only [payDB, List.mem_singleton] at ha hb
    rw [ha, hb]
  have hpre : ∀ q ∈ payDB.payments, q.id = 1 → PaymentInv q := by
    intro q hqmem _
    simp only [payDB, List.mem_singleton] at hqmem
    rw [hqmem]
    show basePayment.payments_made ≤ basePayment.estimated_total
    decide
  exact ⟨((payment_invariant_all_writes payDB).1 cpReq).1 (by decide),
    ((payment_invariant_all_writes payDB).1 cpBadReq).2 15000 20000 rfl rfl
      (by decide),
    (payment_invariant_all_writes payDB).2.1 1 upReq hpre (by decide),
    (payment_invariant_all_writes payDB).2.2 1 addReq huniq (by decide)⟩

end Kare
